import Mathlib

/-!
Shallow embedding of the technical-analysis core of the stock-analysis
repository (src/analysis/technical_analysis.py and the post-earnings
alignment walk of src/data/stock_fetcher.py), together with theorems
settling the frozen claims about it.

Modelling conventions:
* Python/numpy floats are modelled as rationals (`ℚ`); NaN-able cells and
  results are `Option ℚ` with `none` for NaN/absent.
* `datetime.now()` is modelled as an explicit clock argument `now : ℕ`
  passed to each function that calls it, so that the dependence of the
  output on the ambient clock is visible in the type.
* pandas DataFrames become lists of row structures; column presence
  (`'c' in df.columns`) becomes a Boolean flag on the frame.
* Exceptions caught by the pervasive `try/except: return None` pattern
  become `none` results on the branches where the source raises
  (e.g. `iloc[-1]` on an empty frame).
-/

namespace StockAnalysis

/-- A row of the historical price DataFrame: the `High`, `Low`, `Close` and
`Volume` columns that the analysis code reads. -/
structure PricePoint where
  high : ℚ
  low : ℚ
  close : ℚ
  volume : ℚ
deriving DecidableEq, Repr

abbrev PriceSeries := List PricePoint

/-- Arithmetic mean of a list of rationals.  The empty-list value 0 is never
relied upon: every call site either guards non-emptiness as the source does
or goes through `meanSkipNA`. -/
def mean (xs : List ℚ) : ℚ := xs.sum / xs.length

/-- pandas' skipna mean over a NaN-able column: NaN cells (`none`) are
dropped, and the mean of an all-NaN column is itself NaN (`none`). -/
def meanSkipNA (xs : List (Option ℚ)) : Option ℚ :=
  let vs := xs.filterMap id
  if vs.isEmpty then none else some (mean vs)

/-- The shape shared by `Series.rolling(window=w).f()`: at index `i`, apply
`g` to the entries `i+1-w .. i`; NaN (`none`) while fewer than `w` entries
are available, since `min_periods` defaults to the window size. -/
def rollingApply (g : List ℚ → Option ℚ) (w : ℕ) (xs : List ℚ) : List (Option ℚ) :=
  (List.range xs.length).map (fun i =>
    if 1 ≤ w ∧ w ≤ i + 1 then g ((xs.take (i + 1)).drop (i + 1 - w)) else none)

/-- `Series.rolling(window=w).mean()`. -/
def rollingMean (w : ℕ) (xs : List ℚ) : List (Option ℚ) :=
  rollingApply (fun l => some (mean l)) w xs

/-- `Series.rolling(window=w).max()`. -/
def rollingMax (w : ℕ) (xs : List ℚ) : List (Option ℚ) :=
  rollingApply List.max? w xs

/-- `Series.rolling(window=w).min()`. -/
def rollingMin (w : ℕ) (xs : List ℚ) : List (Option ℚ) :=
  rollingApply List.min? w xs

/-- The result of `calculate_moving_averages`: the input frame with one
added `ma_w` column per requested window. -/
structure MAFrame where
  base : PriceSeries
  ma : List (ℕ × List (Option ℚ))
deriving DecidableEq, Repr

/-- `calculate_moving_averages(df, windows=[20, 50, 200])`: adds a rolling
mean of `Close` for each window.  No clock is read and nothing can raise on
this path, so the function is a plain function of its arguments. -/
def calculate_moving_averages (df : PriceSeries) (windows : List ℕ := [20, 50, 200]) : MAFrame :=
  { base := df, ma := windows.map (fun w => (w, rollingMean w (df.map (·.close)))) }

/-- `ma_df.iloc[-1].get('ma_w')`: the last entry of the `ma_w` column if that
column was produced, else absent. -/
def lastMA (m : MAFrame) (w : ℕ) : Option ℚ :=
  match m.ma.lookup w with
  | none => none
  | some col => col.getLast?.join

/-- The dictionary returned by `calculate_support_resistance`.  `date` holds
the `datetime.now()` reading; the NaN-able 52-week figures and levels are
`Option ℚ`. -/
structure SRResult where
  ticker : String
  date : ℕ
  fifty_two_week_high : Option ℚ
  fifty_two_week_low : Option ℚ
  ma_20 : Option ℚ
  ma_50 : Option ℚ
  ma_200 : Option ℚ
  resistances : List (Option ℚ)
  supports : List (Option ℚ)
deriving DecidableEq, Repr

/-- Python's `list.sort()` on the level lists.  In this program a level list
is either all non-NaN (the sort is the usual ascending sort) or all NaN
(every comparison with NaN is false, so Timsort leaves the list - whose
entries are then all equal to `none` anyway - unchanged). -/
def pySortAsc (xs : List (Option ℚ)) : List (Option ℚ) :=
  if none ∈ xs then xs else ((xs.filterMap id).insertionSort (· ≤ ·)).map some

/-- Python's `list.sort(reverse=True)` on the level lists, with the same
all-NaN convention as `pySortAsc`. -/
def pySortDesc (xs : List (Option ℚ)) : List (Option ℚ) :=
  if none ∈ xs then xs else (((xs.filterMap id).insertionSort (· ≤ ·)).reverse).map some

/-- The most recent close of a non-empty series (`latest['Close']`). -/
def currentClose (df : PriceSeries) : ℚ := ((df.getLast?).map (·.close)).getD 0

/-- The `high_52w` figure: last entry of the rolling max of `High`. -/
def high52 (df : PriceSeries) (window : ℕ) : Option ℚ :=
  ((rollingMax window (df.map (·.high))).getLast?).join

/-- The `low_52w` figure: last entry of the rolling min of `Low`. -/
def low52 (df : PriceSeries) (window : ℕ) : Option ℚ :=
  ((rollingMin window (df.map (·.low))).getLast?).join

/-- `calculate_support_resistance(df, ticker, window=252, num_levels=2)`.
On an empty frame the `.iloc[-1]` reads raise and the `except` branch
returns `None`.  Each resistance level is
`current + ((i+1)/(num_levels+1)) * (high_52w - current)` and each support
level is `current - ((i+1)/(num_levels+1)) * (current - low_52w)`; a NaN
52-week figure (series shorter than `window`) propagates into every level. -/
def calculate_support_resistance (now : ℕ) (df : PriceSeries) (ticker : String)
    (window : ℕ := 252) (numLevels : ℕ := 2) : Option SRResult :=
  match df.getLast? with
  | none => none
  | some latest =>
    let h52 := high52 df window
    let l52 := low52 df window
    let maDf := calculate_moving_averages df
    let current := latest.close
    let resistances := (List.range numLevels).map (fun (i : ℕ) =>
      h52.map (fun h => current + (((i : ℚ) + 1) / ((numLevels : ℚ) + 1)) * (h - current)))
    let supports := (List.range numLevels).map (fun (i : ℕ) =>
      l52.map (fun l => current - (((i : ℚ) + 1) / ((numLevels : ℚ) + 1)) * (current - l)))
    some { ticker := ticker
           date := now
           fifty_two_week_high := h52
           fifty_two_week_low := l52
           ma_20 := lastMA maDf 20
           ma_50 := lastMA maDf 50
           ma_200 := lastMA maDf 200
           resistances := pySortAsc resistances
           supports := pySortDesc supports }

/-- A row of the earnings DataFrame: the NaN-able cells of the three columns
the analysis code reads. -/
structure EarningsRow where
  surprise_percent : Option ℚ
  price_1d_change : Option ℚ
  price_5d_change : Option ℚ
deriving DecidableEq, Repr

/-- The earnings DataFrame: per-column presence flags (`'c' in df.columns`)
plus the rows in provider order. -/
structure EarningsFrame where
  hasSurprise : Bool
  hasPrice1d : Bool
  hasPrice5d : Bool
  rows : List EarningsRow
deriving DecidableEq, Repr

/-- The dictionary returned by `calculate_trend_score`.  `date` holds the
`datetime.now()` reading.  `earnings_trend_score` is NaN-able (the skipna
mean of an all-NaN surprise column is NaN), and a NaN earnings score makes
`combined_score` NaN. -/
structure TrendResult where
  ticker : String
  date : ℕ
  price_trend_score : ℚ
  volume_trend_score : ℚ
  earnings_trend_score : Option ℚ
  combined_score : Option ℚ
deriving DecidableEq, Repr

/-- The horizon return used for the price-trend sub-score:
`(latest - close[-days-1]) / close[-days-1]` when more than `days` points
exist, else the explicit fallback 0.  (The inner conditional of the source,
`iloc[-days-1] if days < len(df) else iloc[0]`, is reproduced even though
its second branch is unreachable under the outer guard.) -/
def returnForDays (df : PriceSeries) (latest : ℚ) (days : ℕ) : ℚ :=
  if df.length > days then
    let past := if days < df.length then (df.getD (df.length - days - 1) ⟨0, 0, 0, 0⟩).close
                else (df.headD ⟨0, 0, 0, 0⟩).close
    (latest - past) / past
  else 0

/-- Mean volume of the most recent 5 points (`iloc[-5:]`; the whole series
when shorter than 5). -/
def recentVolume (df : PriceSeries) : ℚ := mean ((df.drop (df.length - 5)).map (·.volume))

/-- Baseline volume: mean of `iloc[-30:-5]` (points 6..30 back) when more
than 30 points exist, else the whole-series mean. -/
def baselineVolume (df : PriceSeries) : ℚ :=
  if df.length > 30 then mean (((df.drop (df.length - 30)).take 25).map (·.volume))
  else mean (df.map (·.volume))

/-- `calculate_trend_score(historical_df, earnings_df=None, ticker=None)`. -/
def calculate_trend_score (now : ℕ) (df : PriceSeries)
    (earnings : Option EarningsFrame := none) (ticker : String := "") : Option TrendResult :=
  if df.isEmpty then none
  else
    let latest := currentClose df
    let r1d := returnForDays df latest 1
    let r1w := returnForDays df latest 5
    let r1m := returnForDays df latest 20
    let r3m := returnForDays df latest 60
    let priceScore := (r1d * 0.3 + r1w * 0.3 + r1m * 0.2 + r3m * 0.2) * 100
    let volumeScore := if baselineVolume df > 0 then (recentVolume df / baselineVolume df - 1) * 100
                       else 0
    let earningsScore : Option ℚ :=
      match earnings with
      | none => some 0
      | some e =>
        if ¬ e.rows.isEmpty ∧ e.hasSurprise then
          let recent := e.rows.take 3
          if ¬ recent.isEmpty then meanSkipNA (recent.map (·.surprise_percent)) else some 0
        else some 0
    some { ticker := ticker
           date := now
           price_trend_score := priceScore
           volume_trend_score := volumeScore
           earnings_trend_score := earningsScore
           combined_score := earningsScore.map (fun e =>
             0.5 * priceScore + 0.3 * volumeScore + 0.2 * e) }

/-- The full dictionary returned by `analyze_price_action_after_earnings`
when the surprise column is present (`full`), and the reduced dictionary
returned when it is absent (`reduced`).  The `corr*` fields record, when
`len(df) > 1`, the (surprise, price-change) pairs the Pearson coefficient is
computed from; its numeric value involves a square root and is irrational
in general, and no claim constrains it, so the embedding keeps the exact
data it is a function of together with the source's `None` gating. -/
inductive EarningsAnalysis where
  | full (ticker : String) (avg_1d_change avg_5d_change : Option ℚ)
      (avg_1d_after_positive avg_5d_after_positive : Option ℚ)
      (avg_1d_after_negative avg_5d_after_negative : Option ℚ)
      (corr_1d corr_5d : Option (List (Option ℚ × Option ℚ)))
      (earnings_count : ℕ)
  | reduced (ticker : String) (avg_1d_change avg_5d_change : Option ℚ) (earnings_count : ℕ)
deriving DecidableEq, Repr

/-- Row filter `earnings_df[earnings_df['surprise_percent'] > 0]` (NaN
compares false, so NaN cells are excluded). -/
def positiveSurprises (rows : List EarningsRow) : List EarningsRow :=
  rows.filter (fun r => match r.surprise_percent with | some s => decide (0 < s) | none => false)

/-- Row filter `earnings_df[earnings_df['surprise_percent'] < 0]`. -/
def negativeSurprises (rows : List EarningsRow) : List EarningsRow :=
  rows.filter (fun r => match r.surprise_percent with | some s => decide (s < 0) | none => false)

/-- `analyze_price_action_after_earnings(historical_df, earnings_df, ticker)`.
The historical frame is unused by the body.  A missing forward-return
column sends the function to its final `else`, which returns `None`. -/
def analyze_price_action_after_earnings (earnings : Option EarningsFrame)
    (ticker : String := "") : Option EarningsAnalysis :=
  match earnings with
  | none => none
  | some e =>
    if e.rows.isEmpty then none
    else if e.hasPrice1d ∧ e.hasPrice5d then
      let avg1 := meanSkipNA (e.rows.map (·.price_1d_change))
      let avg5 := meanSkipNA (e.rows.map (·.price_5d_change))
      if e.hasSurprise then
        let pos := positiveSurprises e.rows
        let neg := negativeSurprises e.rows
        some (.full ticker avg1 avg5
          (if pos.isEmpty then none else meanSkipNA (pos.map (·.price_1d_change)))
          (if pos.isEmpty then none else meanSkipNA (pos.map (·.price_5d_change)))
          (if neg.isEmpty then none else meanSkipNA (neg.map (·.price_1d_change)))
          (if neg.isEmpty then none else meanSkipNA (neg.map (·.price_5d_change)))
          (if e.rows.length > 1 then some (e.rows.map (fun r => (r.surprise_percent, r.price_1d_change))) else none)
          (if e.rows.length > 1 then some (e.rows.map (fun r => (r.surprise_percent, r.price_5d_change))) else none)
          e.rows.length)
      else some (.reduced ticker avg1 avg5 e.rows.length)
    else none

/-- The bundle assembled by `analyze_stock`. -/
structure AnalysisBundle where
  ticker : String
  support_resistance : Option SRResult
  trend_scores : Option TrendResult
  earnings_analysis : Option EarningsAnalysis
deriving DecidableEq, Repr

/-- `analyze_stock(ticker, historical_df, earnings_df=None)`: the
orchestrator.  An empty (or absent) price frame short-circuits to `None`
before any component runs. -/
def analyze_stock (now : ℕ) (ticker : String) (df : PriceSeries)
    (earnings : Option EarningsFrame := none) : Option AnalysisBundle :=
  if df.isEmpty then none
  else
    some { ticker := ticker
           support_resistance := calculate_support_resistance now df ticker
           trend_scores := calculate_trend_score now df earnings ticker
           earnings_analysis :=
             match earnings with
             | some e => if ¬ e.rows.isEmpty then analyze_price_action_after_earnings (some e) ticker
                         else none
             | none => none }

/-!
The post-earnings alignment walk of `calculate_post_earnings_movement`
(src/data/stock_fetcher.py).  Calendar dates are modelled as natural
numbers (days since an epoch); the fetched history becomes an association
list from present trading dates to closes.
-/

/-- The fetched daily history: (date, close) for each trading day present. -/
abbrev Hist := List (ℕ × ℚ)

/-- `hist_data.index`: the trading dates present in the history. -/
def histDates (hist : Hist) : List ℕ := hist.map Prod.fst

/-- `hist_data.loc[d, 'Close']`.  Every read in the source is guarded by a
membership test on the index, so the default is never reached there. -/
def closeAt (hist : Hist) (d : ℕ) : ℚ :=
  ((hist.find? (fun p => p.1 == d)).map Prod.snd).getD 0

/-- The anchor-alignment loop
`while closest not in index and closest <= a + 3: closest += 1`,
fuel-indexed; the guard fails after at most four increments, so any fuel
≥ 5 computes the loop's result. -/
def anchorLoop (idx : List ℕ) (a : ℕ) : ℕ → ℕ → ℕ
  | closest, 0 => closest
  | closest, fuel + 1 =>
    if closest ∉ idx ∧ closest ≤ a + 3 then anchorLoop idx a (closest + 1) fuel else closest

/-- `closest_date` as computed for announcement `a`: the anchor-alignment
loop started at `a` itself. -/
def closestDate (idx : List ℕ) (a : ℕ) : ℕ := anchorLoop idx a a 5

/-- The forward-horizon loop for horizon `day`:
`while days_added < day and future < a + timedelta(day + 5): future += 1;
 if future in index: days_added += 1`, fuel-indexed.  It returns the final
`(future, days_added)` pair. -/
def horizonLoop (idx : List ℕ) (a day : ℕ) : ℕ → ℕ → ℕ → ℕ × ℕ
  | future, daysAdded, 0 => (future, daysAdded)
  | future, daysAdded, fuel + 1 =>
    if daysAdded < day ∧ future < a + (day + 5) then
      horizonLoop idx a day (future + 1)
        (if future + 1 ∈ idx then daysAdded + 1 else daysAdded) fuel
    else (future, daysAdded)

/-- The `price_{day}d_change` entry for one event: run the horizon loop from
the anchor and report the percentage change iff the final `future_date` is
present in the index (the source checks only that, not the day count). -/
def horizonChange (hist : Hist) (a closest day : ℕ) : Option ℚ :=
  let p := horizonLoop (histDates hist) a day closest 0 (day + 6)
  if p.1 ∈ histDates hist then
    some ((closeAt hist p.1 - closeAt hist closest) / closeAt hist closest * 100)
  else none

/-- The per-event dictionary appended to `results`: the announcement date
plus, per horizon, the optional `price_{day}d_change` entry. -/
structure EventChanges where
  announcement_date : ℕ
  changes : List (ℕ × Option ℚ)
deriving DecidableEq, Repr

/-- `calculate_post_earnings_movement(ticker, announcement_dates,
days=(1, 5))`, after the external fetch produced `hist`: events whose
aligned `closest_date` is absent from the index are skipped (`continue`),
and an empty result list yields `None`. -/
def calculate_post_earnings_movement (hist : Hist) (announcement_dates : List ℕ)
    (days : List ℕ := [1, 5]) : Option (List EventChanges) :=
  if hist.isEmpty then none
  else
    let results := announcement_dates.filterMap (fun a =>
      let closest := closestDate (histDates hist) a
      if closest ∈ histDates hist then
        some { announcement_date := a
               changes := days.map (fun d => (d, horizonChange hist a closest d)) }
      else none)
    if results.isEmpty then none else some results

/-! ### Helper lemmas -/

lemma mem_of_getLast?_eq_some {α : Type} {xs : List α} {a : α} (h : xs.getLast? = some a) :
    a ∈ xs := by
  obtain ⟨ys, rfl⟩ := List.getLast?_eq_some_iff.mp h
  simp

lemma rollingApply_getLast (g : List ℚ → Option ℚ) (w : ℕ) (xs : List ℚ) (h : xs ≠ []) :
    ((rollingApply g w xs).getLast?).join =
      if 1 ≤ w ∧ w ≤ xs.length then g (xs.drop (xs.length - w)) else none := by
  obtain ⟨m, hm⟩ : ∃ m, xs.length = m + 1 := by
    cases xs with
    | nil => simp at h
    | cons a l => exact ⟨l.length, by simp⟩
  unfold rollingApply
  rw [hm, List.range_succ, List.map_append, List.map_cons, List.map_nil,
    List.getLast?_concat]
  rw [← hm, List.take_length]
  cases hc : (if 1 ≤ w ∧ w ≤ xs.length then g (xs.drop (xs.length - w)) else none) <;>
    simp [hc, Option.join]

lemma high52_eq_max (df : PriceSeries) (w : ℕ) (hw : 1 ≤ w) (hlen : w ≤ df.length) :
    high52 df w = ((df.map (·.high)).drop (df.length - w)).max? := by
  have hne : df.map (·.high) ≠ [] := by
    intro hc
    rw [List.map_eq_nil_iff] at hc
    subst hc
    simp at hlen
    omega
  unfold high52 rollingMax
  rw [rollingApply_getLast _ _ _ hne]
  simp [hw, hlen]

lemma low52_eq_min (df : PriceSeries) (w : ℕ) (hw : 1 ≤ w) (hlen : w ≤ df.length) :
    low52 df w = ((df.map (·.low)).drop (df.length - w)).min? := by
  have hne : df.map (·.low) ≠ [] := by
    intro hc
    rw [List.map_eq_nil_iff] at hc
    subst hc
    simp at hlen
    omega
  unfold low52 rollingMin
  rw [rollingApply_getLast _ _ _ hne]
  simp [hw, hlen]

lemma fiftyTwoWeek_none_of_short (df : PriceSeries) (w : ℕ) (h : df ≠ [])
    (hshort : df.length < w) : high52 df w = none ∧ low52 df w = none := by
  have hne : df.map (·.high) ≠ [] := by simpa using h
  have hne' : df.map (·.low) ≠ [] := by simpa using h
  unfold high52 low52 rollingMax rollingMin
  rw [rollingApply_getLast _ _ _ hne, rollingApply_getLast _ _ _ hne']
  simp only [List.length_map]
  constructor <;> · rw [if_neg]; omega

lemma anchorLoop_succ (idx : List ℕ) (a c fuel : ℕ) :
    anchorLoop idx a c (fuel + 1) =
      if c ∉ idx ∧ c ≤ a + 3 then anchorLoop idx a (c + 1) fuel else c := rfl

/-- The anchor-alignment loop lands on the first date of `a .. a+3` present
in the index, and on `a + 4` when none of them is. -/
lemma closestDate_eq (idx : List ℕ) (a : ℕ) :
    closestDate idx a =
      if a ∈ idx then a
      else if a + 1 ∈ idx then a + 1
      else if a + 2 ∈ idx then a + 2
      else if a + 3 ∈ idx then a + 3
      else a + 4 := by
  rw [closestDate, anchorLoop_succ]
  by_cases h0 : a ∈ idx
  · simp [h0]
  rw [if_pos ⟨h0, by omega⟩, anchorLoop_succ]
  by_cases h1 : a + 1 ∈ idx
  · simp [h0, h1]
  rw [if_pos ⟨h1, by omega⟩, anchorLoop_succ]
  by_cases h2 : a + 2 ∈ idx
  · simp [h0, h1, h2]
  rw [if_pos ⟨h2, by omega⟩, anchorLoop_succ]
  by_cases h3 : a + 3 ∈ idx
  · simp [h0, h1, h2, h3]
  rw [if_pos ⟨h3, by omega⟩, anchorLoop_succ, if_neg (by omega)]
  simp [h0, h1, h2, h3]

lemma horizonLoop_succ (idx : List ℕ) (a day f d fuel : ℕ) :
    horizonLoop idx a day f d (fuel + 1) =
      if d < day ∧ f < a + (day + 5) then
        horizonLoop idx a day (f + 1) (if f + 1 ∈ idx then d + 1 else d) fuel
      else (f, d) := rfl

/-- Exit conditions of the forward-horizon loop: the day count never exceeds
the horizon; when the count reached the horizon the final day is a counted
(present) day; the final day never passes `a + day + 5`; and when the count
fell short the loop stopped exactly at `a + day + 5`. -/
lemma horizonLoop_post (idx : List ℕ) (a day : ℕ) :
    ∀ (fuel f d : ℕ), d ≤ day → (d = day → f ∈ idx) → f ≤ a + (day + 5) →
      a + (day + 5) ≤ f + fuel →
      (horizonLoop idx a day f d fuel).2 ≤ day ∧
      ((horizonLoop idx a day f d fuel).2 = day → (horizonLoop idx a day f d fuel).1 ∈ idx) ∧
      (horizonLoop idx a day f d fuel).1 ≤ a + (day + 5) ∧
      ((horizonLoop idx a day f d fuel).2 < day →
        (horizonLoop idx a day f d fuel).1 = a + (day + 5))
  | 0, f, d, h1, h2, h3, h4 => by
    refine ⟨h1, h2, h3, fun _ => ?_⟩
    simp only [horizonLoop]
    omega
  | fuel + 1, f, d, h1, h2, h3, h4 => by
    rw [horizonLoop_succ]
    by_cases hg : d < day ∧ f < a + (day + 5)
    · rw [if_pos hg]
      by_cases hm : f + 1 ∈ idx
      · rw [if_pos hm]
        exact horizonLoop_post idx a day fuel (f + 1) (d + 1) (by omega) (fun _ => hm)
          (by omega) (by omega)
      · rw [if_neg hm]
        exact horizonLoop_post idx a day fuel (f + 1) d (by omega) (fun hd => by omega)
          (by omega) (by omega)
    · rw [if_neg hg]
      exact ⟨h1, h2, h3, fun hlt => by omega⟩

lemma filterMap_guard_dates (p : ℕ → Prop) [DecidablePred p]
    (g : ℕ → List (ℕ × Option ℚ)) (ds : List ℕ) :
    ((ds.filterMap (fun a =>
        if p a then some (⟨a, g a⟩ : EventChanges) else none)).map
      EventChanges.announcement_date) = ds.filter (fun a => decide (p a)) := by
  induction ds with
  | nil => rfl
  | cons x xs ih => by_cases hx : p x <;> simp [hx, ih]

/-- The announcement dates carried into the result table are exactly those
whose aligned `closest_date` is present in the index; skipped events leave
no per-event record. -/
lemma eventDates (hist : Hist) (ds days : List ℕ) :
    ((calculate_post_earnings_movement hist ds days).getD []).map
        EventChanges.announcement_date =
      if hist.isEmpty then []
      else ds.filter (fun x => decide (closestDate (histDates hist) x ∈ histDates hist)) := by
  have hmap := filterMap_guard_dates
    (p := fun a => closestDate (histDates hist) a ∈ histDates hist)
    (g := fun a => days.map (fun d => (d, horizonChange hist a (closestDate (histDates hist) a) d)))
    ds
  simp only [calculate_post_earnings_movement]
  by_cases he : hist.isEmpty
  · simp [he]
  · rw [if_neg he, if_neg he]
    by_cases hres : (ds.filterMap (fun a =>
        if closestDate (histDates hist) a ∈ histDates hist then
          some (⟨a, days.map (fun d => (d, horizonChange hist a (closestDate (histDates hist) a) d))⟩ : EventChanges)
        else none)).isEmpty
    · rw [if_pos hres]
      rw [List.isEmpty_iff] at hres
      simp only [Option.getD_none, List.map_nil]
      rw [← hmap, hres, List.map_nil]
    · rw [if_neg hres]
      simpa using hmap

lemma getLast?_drop_of_lt {α : Type} (xs : List α) (k : ℕ) (h : k < xs.length) :
    (xs.drop k).getLast? = xs.getLast? := by
  conv_rhs => rw [← List.take_append_drop k xs]
  rw [List.getLast?_append]
  have hne : xs.drop k ≠ [] := by
    rw [ne_eq, List.drop_eq_nil_iff]
    omega
  obtain ⟨y, hy⟩ := Option.isSome_iff_exists.mp (List.getLast?_isSome.mpr hne)
  rw [hy]
  rfl

lemma filterMap_id_map_some {α : Type} (l : List α) (g : α → ℚ) :
    (l.map (fun i => some (g i))).filterMap id = l.map g := by
  induction l with
  | nil => rfl
  | cons x xs ih => simp [ih]

lemma pySortAsc_map_some (g : ℕ → ℚ) (n : ℕ) :
    pySortAsc ((List.range n).map (fun i => some (g i))) =
      (((List.range n).map g).insertionSort (· ≤ ·)).map some := by
  unfold pySortAsc
  rw [if_neg (by simp), filterMap_id_map_some]

lemma pySortDesc_map_some (g : ℕ → ℚ) (n : ℕ) :
    pySortDesc ((List.range n).map (fun i => some (g i))) =
      ((((List.range n).map g).insertionSort (· ≤ ·)).reverse).map some := by
  unfold pySortDesc
  rw [if_neg (by simp), filterMap_id_map_some]

/-! ### Claim C2: behaviour on the empty series and pass-through of absent
components -/

/-- Claim C2 counterexample: on the empty series `analyze_stock` returns
`None` outright - there is no bundle at all, in particular not a bundle
whose three sub-results are all `None` as the claim states. -/
theorem analyze_stock_empty_series_counterexample :
    analyze_stock 0 "AAPL" [] none = none ∧
    analyze_stock 0 "AAPL" [] none ≠ some ⟨"AAPL", none, none, none⟩ := by decide

/-- Claim C2 (amended): on the empty series `calculate_support_resistance`
and `calculate_trend_score` return `None`, and `analyze_stock` returns
`None` (the bundle itself is absent rather than a bundle of `None`s); for a
non-empty series the bundle is always produced and each component's result
- including `None` - is carried through unchanged, never escalated to a
failure of the whole bundle. -/
theorem empty_series_none_and_bundle_pass_through (now : ℕ) (ticker : String)
    (e : Option EarningsFrame) (df : PriceSeries) (w n : ℕ) :
    calculate_support_resistance now [] ticker w n = none ∧
    calculate_trend_score now [] e ticker = none ∧
    analyze_stock now ticker [] e = none ∧
    (analyze_stock now ticker df e).map AnalysisBundle.support_resistance =
      (if df.isEmpty then none else some (calculate_support_resistance now df ticker)) ∧
    (analyze_stock now ticker df e).map AnalysisBundle.trend_scores =
      (if df.isEmpty then none else some (calculate_trend_score now df e ticker)) ∧
    (analyze_stock now ticker df e).map AnalysisBundle.earnings_analysis =
      (if df.isEmpty then none
       else some (match e with
         | some ef => if ¬ ef.rows.isEmpty then
             analyze_price_action_after_earnings (some ef) ticker else none
         | none => none)) := by
  refine ⟨rfl, rfl, rfl, ?_, ?_, ?_⟩ <;>
    · simp only [analyze_stock]
      by_cases hdf : df.isEmpty <;> simp [hdf] <;> rfl

/-! ### Claim C3: 52-week figures on a series shorter than the window -/

/-- Claim C3 counterexample: on a one-point series with `window = 252` the
rolling max/min (with `min_periods` defaulting to the window) is NaN, so
`fifty_two_week_high` is absent - not the maximum (5) of the high column
over the available points as the claim states. -/
theorem short_series_52w_high_counterexample :
    (calculate_support_resistance 0 [⟨5, 1, 3, 2⟩] "X" 252 2).map
        SRResult.fifty_two_week_high = some none ∧
    (calculate_support_resistance 0 [⟨5, 1, 3, 2⟩] "X" 252 2).map
        SRResult.fifty_two_week_high ≠ some (some 5) ∧
    (([⟨5, 1, 3, 2⟩] : PriceSeries).map (·.high)).max? = some 5 := by decide

/-- Claim C3 (amended): for a non-empty series with fewer than `window`
points, `calculate_support_resistance` still returns a result (no error),
but its `fifty_two_week_high` and `fifty_two_week_low` are NaN (absent),
not the max/min over the available points. -/
theorem short_series_52w_figures_absent (now : ℕ) (df : PriceSeries) (ticker : String)
    (window numLevels : ℕ) (hne : df ≠ []) (hshort : df.length < window) :
    (calculate_support_resistance now df ticker window numLevels).map
        SRResult.fifty_two_week_high = some none ∧
    (calculate_support_resistance now df ticker window numLevels).map
        SRResult.fifty_two_week_low = some none := by
  obtain ⟨hh, hl⟩ := fiftyTwoWeek_none_of_short df window hne hshort
  obtain ⟨last, hlast⟩ := Option.isSome_iff_exists.mp (List.getLast?_isSome.mpr hne)
  simp [calculate_support_resistance, hlast, hh, hl]

/-- Witness for C3's amended theorem at a concrete one-point series. -/
theorem short_series_52w_figures_absent_witness :
    ([⟨5, 1, 3, 2⟩] : PriceSeries) ≠ [] ∧
    ([⟨5, 1, 3, 2⟩] : PriceSeries).length < 252 ∧
    (calculate_support_resistance 9 [⟨5, 1, 3, 2⟩] "X" 252 2).map
        SRResult.fifty_two_week_low = some none :=
  ⟨by decide, by decide,
    (short_series_52w_figures_absent 9 [⟨5, 1, 3, 2⟩] "X" 252 2 (by decide) (by decide)).2⟩

/-! ### Claim C6: the combined score is the fixed weighted sum of the three
sub-scores returned alongside it -/

/-- Claim C6 (confirmed): whenever `calculate_trend_score` returns a result,
its `combined_score` equals `0.5 * price + 0.3 * volume + 0.2 * earnings`
for the three sub-scores in the same result (with a NaN earnings sub-score
propagating to a NaN combined score). -/
theorem combined_score_weighted_sum (now : ℕ) (df : PriceSeries)
    (e : Option EarningsFrame) (t : String) (r : TrendResult)
    (h : calculate_trend_score now df e t = some r) :
    r.combined_score = r.earnings_trend_score.map (fun ets =>
      0.5 * r.price_trend_score + 0.3 * r.volume_trend_score + 0.2 * ets) := by
  by_cases hdf : df.isEmpty
  · simp [calculate_trend_score, hdf] at h
  · simp only [calculate_trend_score, hdf, Bool.false_eq_true, if_false,
      Option.some.injEq] at h
    subst h
    rfl

/-- Witness for C6 at a concrete one-point series with no earnings data. -/
theorem combined_score_weighted_sum_witness :
    calculate_trend_score 7 [⟨10, 1, 5, 2⟩] none "X" =
      some ⟨"X", 7, 0, 0, some 0, some 0⟩ ∧
    (⟨"X", 7, 0, 0, some 0, some 0⟩ : TrendResult).combined_score =
      ((⟨"X", 7, 0, 0, some 0, some 0⟩ : TrendResult).earnings_trend_score).map
        (fun ets => 0.5 * (⟨"X", 7, 0, 0, some 0, some 0⟩ : TrendResult).price_trend_score +
          0.3 * (⟨"X", 7, 0, 0, some 0, some 0⟩ : TrendResult).volume_trend_score + 0.2 * ets) := by
  have hA : calculate_trend_score 7 [⟨10, 1, 5, 2⟩] none "X" =
      some ⟨"X", 7, 0, 0, some 0, some 0⟩ := by
    norm_num [calculate_trend_score, currentClose, returnForDays, recentVolume,
      baselineVolume, mean, meanSkipNA]
  exact ⟨hA, combined_score_weighted_sum 7 [⟨10, 1, 5, 2⟩] none "X" _ hA⟩

/-! ### Claim C8: degradation of the earnings price-action analysis -/

/-- Claim C8 counterexample: an earnings list with `surprise_percent` but
without the forward-return columns yields a wholly absent result (`None`),
although fields like the event count (here 1) are computable - contradicting
"never a wholly absent result when some fields are computable". -/
theorem earnings_analysis_missing_price_columns_counterexample :
    analyze_price_action_after_earnings (some ⟨true, false, false, [⟨some 5, none, none⟩]⟩) "X"
      = none ∧
    (⟨true, false, false, [⟨some 5, none, none⟩]⟩ : EarningsFrame).rows.length = 1 := by decide

/-- Claim C8 (amended): for a non-empty earnings list, a missing
`surprise_percent` column alone yields the degraded result carrying the
average 1-day/5-day changes and the event count; but a missing forward-return
column (`price_1d_change` or `price_5d_change`) yields `None` - a wholly
absent result, not a degraded one. -/
theorem earnings_analysis_degradation (e : EarningsFrame) (t : String)
    (hr : e.rows ≠ []) :
    (e.hasPrice1d = false ∨ e.hasPrice5d = false →
      analyze_price_action_after_earnings (some e) t = none) ∧
    (e.hasPrice1d = true → e.hasPrice5d = true → e.hasSurprise = false →
      analyze_price_action_after_earnings (some e) t =
        some (.reduced t (meanSkipNA (e.rows.map (·.price_1d_change)))
          (meanSkipNA (e.rows.map (·.price_5d_change))) e.rows.length)) := by
  have hr' : e.rows.isEmpty = false := by simpa using hr
  constructor
  · rintro (h | h) <;> simp [analyze_price_action_after_earnings, hr', h]
  · intro h1 h5 hs
    simp [analyze_price_action_after_earnings, hr', h1, h5, hs]

/-- Witness for C8's amended theorem at concrete frames for both branches. -/
theorem earnings_analysis_degradation_witness :
    analyze_price_action_after_earnings (some ⟨true, false, true, [⟨some 1, none, none⟩]⟩) "X"
      = none ∧
    analyze_price_action_after_earnings (some ⟨false, true, true, [⟨none, some 1, some 2⟩]⟩) "X"
      = some (.reduced "X"
          (meanSkipNA ([(⟨none, some 1, some 2⟩ : EarningsRow)].map (·.price_1d_change)))
          (meanSkipNA ([(⟨none, some 1, some 2⟩ : EarningsRow)].map (·.price_5d_change))) 1) :=
  ⟨(earnings_analysis_degradation ⟨true, false, true, [⟨some 1, none, none⟩]⟩ "X"
      (by decide)).1 (Or.inl rfl),
   (earnings_analysis_degradation ⟨false, true, true, [⟨none, some 1, some 2⟩]⟩ "X"
      (by decide)).2 rfl rfl rfl⟩

/-! ### Claim C9: the earnings trend sub-score and row order -/

/-- Claim C9 counterexample: the earnings sub-score averages `head(3)` - the
first three rows in supplied order - so two permutations of the same four
events give different scores (2 versus 35), contradicting "regardless of
the order in which the earnings events are supplied". -/
theorem earnings_trend_order_dependent_counterexample :
    (calculate_trend_score 7 [⟨10, 1, 5, 2⟩]
        (some ⟨true, false, false,
          [⟨some 1, none, none⟩, ⟨some 2, none, none⟩,
           ⟨some 3, none, none⟩, ⟨some 100, none, none⟩]⟩) "X").map
      TrendResult.earnings_trend_score = some (some 2) ∧
    (calculate_trend_score 7 [⟨10, 1, 5, 2⟩]
        (some ⟨true, false, false,
          [⟨some 100, none, none⟩, ⟨some 3, none, none⟩,
           ⟨some 2, none, none⟩, ⟨some 1, none, none⟩]⟩) "X").map
      TrendResult.earnings_trend_score = some (some 35) ∧
    List.Perm
      [(⟨some 100, none, none⟩ : EarningsRow), ⟨some 3, none, none⟩,
       ⟨some 2, none, none⟩, ⟨some 1, none, none⟩]
      [⟨some 1, none, none⟩, ⟨some 2, none, none⟩,
       ⟨some 3, none, none⟩, ⟨some 100, none, none⟩] ∧
    (2 : ℚ) ≠ 35 := by
  refine ⟨?_, ?_, by decide, by norm_num⟩ <;>
    norm_num [calculate_trend_score, currentClose, returnForDays, recentVolume,
      baselineVolume, mean, meanSkipNA, List.filterMap_cons, List.filterMap_nil]

/-- Claim C9 (amended): for a non-empty price series the earnings trend
sub-score is the skipna mean of `surprise_percent` over the FIRST three rows
in the order the earnings frame supplies them (`head(3)`; these are the
three most recent events only when the provider orders most-recent-first),
and `0` when earnings data is absent, empty, or lacks the column. -/
theorem earnings_trend_uses_first_three_rows (now : ℕ) (df : PriceSeries) (t : String)
    (hdf : df ≠ []) :
    (∀ e : EarningsFrame, e.hasSurprise = true → e.rows ≠ [] →
      (calculate_trend_score now df (some e) t).map TrendResult.earnings_trend_score =
        some (meanSkipNA ((e.rows.take 3).map (·.surprise_percent)))) ∧
    (∀ e : EarningsFrame, e.hasSurprise = false →
      (calculate_trend_score now df (some e) t).map TrendResult.earnings_trend_score =
        some (some 0)) ∧
    (∀ e : EarningsFrame, e.rows = [] →
      (calculate_trend_score now df (some e) t).map TrendResult.earnings_trend_score =
        some (some 0)) ∧
    (calculate_trend_score now df none t).map TrendResult.earnings_trend_score =
      some (some 0) := by
  have hdf' : df.isEmpty = false := by simpa using hdf
  refine ⟨fun e hs he => ?_, fun e hs => ?_, fun e he => ?_, ?_⟩
  · have he' : e.rows.isEmpty = false := by simpa using he
    have ht : (e.rows.take 3).isEmpty = false := by
      cases hrows : e.rows with
      | nil => exact absurd hrows he
      | cons y ys => rfl
    simp [calculate_trend_score, hdf', hs, he', ht]
  · simp [calculate_trend_score, hdf', hs]
  · simp [calculate_trend_score, hdf', he]
  · simp [calculate_trend_score, hdf']

/-- Witness for C9's amended theorem at concrete inputs for each branch. -/
theorem earnings_trend_uses_first_three_rows_witness :
    (calculate_trend_score 3 [⟨10, 1, 5, 2⟩]
        (some ⟨true, false, false, [⟨some 4, none, none⟩]⟩) "X").map
      TrendResult.earnings_trend_score =
      some (meanSkipNA (([(⟨some 4, none, none⟩ : EarningsRow)].take 3).map (·.surprise_percent))) ∧
    (calculate_trend_score 3 [⟨10, 1, 5, 2⟩] none "X").map
      TrendResult.earnings_trend_score = some (some 0) :=
  ⟨(earnings_trend_uses_first_three_rows 3 [⟨10, 1, 5, 2⟩] "X" (by decide)).1
      ⟨true, false, false, [⟨some 4, none, none⟩]⟩ rfl (by decide),
   (earnings_trend_uses_first_three_rows 3 [⟨10, 1, 5, 2⟩] "X" (by decide)).2.2.2⟩

/-! ### Claim C10: zero baseline volume -/

/-- Claim C10 (confirmed): on a non-empty series whose baseline volume mean
is zero, the guarded branch is taken and `volume_trend_score` is 0; the
division by the baseline is only ever taken under the `baseline > 0`
guard. -/
theorem zero_baseline_volume_score_zero (now : ℕ) (df : PriceSeries)
    (e : Option EarningsFrame) (t : String) (hdf : df ≠ [])
    (hbase : baselineVolume df = 0) :
    (calculate_trend_score now df e t).map TrendResult.volume_trend_score = some 0 := by
  have hdf' : df.isEmpty = false := by simpa using hdf
  simp [calculate_trend_score, hdf', hbase]

/-- Witness for C10 at a concrete series with an all-zero volume column. -/
theorem zero_baseline_volume_score_zero_witness :
    ([⟨10, 1, 5, 0⟩] : PriceSeries) ≠ [] ∧
    baselineVolume [⟨10, 1, 5, 0⟩] = 0 ∧
    (calculate_trend_score 2 [⟨10, 1, 5, 0⟩] none "T").map
      TrendResult.volume_trend_score = some 0 := by
  have hb : baselineVolume [⟨10, 1, 5, 0⟩] = 0 := by
    norm_num [baselineVolume, mean]
  exact ⟨by decide, hb,
    zero_baseline_volume_score_zero 2 [⟨10, 1, 5, 0⟩] none "T" (by decide) hb⟩

/-! ### Claim C1: purity of the core functions -/

/-- All fields of an `SRResult` except the `date` timestamp. -/
def srData (r : SRResult) :=
  (r.ticker, r.fifty_two_week_high, r.fifty_two_week_low, r.ma_20, r.ma_50, r.ma_200,
   r.resistances, r.supports)

/-- All fields of a `TrendResult` except the `date` timestamp. -/
def trendData (r : TrendResult) :=
  (r.ticker, r.price_trend_score, r.volume_trend_score, r.earnings_trend_score,
   r.combined_score)

/-- An `AnalysisBundle` with the `date` timestamps of its sub-results erased. -/
def bundleData (b : AnalysisBundle) :=
  (b.ticker, b.support_resistance.map srData, b.trend_scores.map trendData,
   b.earnings_analysis)

lemma srData_clock_invariant (t₁ t₂ : ℕ) (df : PriceSeries) (k : String) (w n : ℕ) :
    (calculate_support_resistance t₁ df k w n).map srData =
      (calculate_support_resistance t₂ df k w n).map srData := by
  unfold calculate_support_resistance
  cases df.getLast? <;> simp [srData]

lemma trendData_clock_invariant (t₁ t₂ : ℕ) (df : PriceSeries)
    (e : Option EarningsFrame) (k : String) :
    (calculate_trend_score t₁ df e k).map trendData =
      (calculate_trend_score t₂ df e k).map trendData := by
  unfold calculate_trend_score
  by_cases hdf : df.isEmpty <;> simp [hdf, trendData]

lemma bundleData_clock_invariant (t₁ t₂ : ℕ) (df : PriceSeries)
    (e : Option EarningsFrame) (k : String) :
    (analyze_stock t₁ k df e).map bundleData =
      (analyze_stock t₂ k df e).map bundleData := by
  unfold analyze_stock
  by_cases hdf : df.isEmpty <;> simp [hdf, bundleData]
  exact ⟨srData_clock_invariant t₁ t₂ df k 252 2, trendData_clock_invariant t₁ t₂ df e k⟩

/-- Claim C1 counterexample: `calculate_support_resistance` reads
`datetime.now()` into the `date` field of its result, so two calls with
identical inputs at different clock readings give different output - the
output is not bit-identical and the function is not a pure function of its
arguments alone. -/
theorem support_resistance_varies_with_clock_counterexample :
    calculate_support_resistance 0 [⟨100, 100, 100, 0⟩] "X" 1 1 ≠
      calculate_support_resistance 1 [⟨100, 100, 100, 0⟩] "X" 1 1 ∧
    (calculate_support_resistance 0 [⟨100, 100, 100, 0⟩] "X" 1 1).map SRResult.date ≠
      (calculate_support_resistance 1 [⟨100, 100, 100, 0⟩] "X" 1 1).map SRResult.date := by
  constructor
  · intro h
    have := congrArg (Option.map SRResult.date) h
    simp [calculate_support_resistance] at this
  · simp [calculate_support_resistance]

/-- Claim C1 (amended): each core function is a pure function of its
arguments plus the ambient clock reading, which enters only the `date`
timestamp field: outputs of `calculate_support_resistance`,
`calculate_trend_score` and `analyze_stock` at two different clock readings
agree on every field except `date`.  (`calculate_moving_averages` and
`analyze_price_action_after_earnings` read no clock at all and are plain
functions of their arguments in the embedding.) -/
theorem core_functions_pure_up_to_timestamp (t₁ t₂ : ℕ) (df : PriceSeries)
    (k : String) (w n : ℕ) (e : Option EarningsFrame) :
    (calculate_support_resistance t₁ df k w n).map srData =
      (calculate_support_resistance t₂ df k w n).map srData ∧
    (calculate_trend_score t₁ df e k).map trendData =
      (calculate_trend_score t₂ df e k).map trendData ∧
    (analyze_stock t₁ k df e).map bundleData =
      (analyze_stock t₂ k df e).map bundleData :=
  ⟨srData_clock_invariant t₁ t₂ df k w n, trendData_clock_invariant t₁ t₂ df e k,
   bundleData_clock_invariant t₁ t₂ df e k⟩

/-! ### Claim C4: anchoring an announcement to a trading day -/

/-- Claim C4 counterexample: with only `a + 4` present in the series, the
alignment loop exits at `a + 4` and the final membership re-check accepts
it, so the event is processed with an anchor 4 calendar days after the
announcement - it is neither within 3 days nor skipped as the claim
states. -/
theorem anchor_four_days_counterexample :
    closestDate [4] 0 = 4 ∧
    ((4 : ℕ) ∈ histDates [((4 : ℕ), (100 : ℚ))]) ∧
    ¬ ((4 : ℕ) ≤ 0 + 3) ∧
    calculate_post_earnings_movement [(4, 100)] [0] [1, 5] =
      some [⟨0, [(1, none), (5, none)]⟩] := by decide

/-- Claim C4 (amended): the anchor is the first date of `a .. a+3` present
in the series when one exists (at most 3 calendar days after `a`, as
claimed); when none of `a .. a+3` is present the walk stops at `a + 4` and
the event is still processed, anchored at `a + 4`, if `a + 4` is present;
the event is skipped - contributing no per-event record to the result
table - exactly when none of `a .. a+4` is present. -/
theorem anchor_walk_characterization (idx : List ℕ) (a : ℕ) :
    (a ≤ closestDate idx a ∧ closestDate idx a ≤ a + 4) ∧
    (closestDate idx a ≤ a + 3 → closestDate idx a ∈ idx) ∧
    (∀ d, a ≤ d → d < closestDate idx a → d ≤ a + 3 → d ∉ idx) ∧
    (closestDate idx a ∉ idx → ∀ d, a ≤ d → d ≤ a + 4 → d ∉ idx) ∧
    (∀ (hist : Hist) (ds days : List ℕ),
      ((calculate_post_earnings_movement hist ds days).getD []).map
          EventChanges.announcement_date =
        if hist.isEmpty then []
        else ds.filter (fun x =>
          decide (closestDate (histDates hist) x ∈ histDates hist))) := by
  refine ⟨?_, ?_, ?_, ?_, fun hist ds days => eventDates hist ds days⟩
  · rw [closestDate_eq]
    split_ifs <;> omega
  · rw [closestDate_eq]
    split_ifs with h0 h1 h2 h3 <;> intro hle
    exacts [h0, h1, h2, h3, absurd hle (by omega)]
  · rw [closestDate_eq]
    split_ifs with h0 h1 h2 h3 <;>
      · intro d hd1 hd2 hd3
        have hd : d = a ∨ d = a + 1 ∨ d = a + 2 ∨ d = a + 3 := by omega
        rcases hd with rfl | rfl | rfl | rfl <;>
          first
            | assumption
            | exact (by omega : False).elim
  · rw [closestDate_eq]
    split_ifs with h0 h1 h2 h3 <;> intro hc d hd1 hd2
    · exact absurd h0 hc
    · exact absurd h1 hc
    · exact absurd h2 hc
    · exact absurd h3 hc
    · have hd : d = a ∨ d = a + 1 ∨ d = a + 2 ∨ d = a + 3 ∨ d = a + 4 := by omega
      rcases hd with rfl | rfl | rfl | rfl | rfl <;> assumption

/-- Witness for C4's amended theorem at a concrete index. -/
theorem anchor_walk_characterization_witness :
    closestDate [2, 3] 0 ∈ [2, 3] ∧
    (0 ≤ closestDate [2, 3] 0 ∧ closestDate [2, 3] 0 ≤ 0 + 4) :=
  ⟨(anchor_walk_characterization [2, 3] 0).2.1 (by decide),
   (anchor_walk_characterization [2, 3] 0).1⟩

/-! ### Claim C5: reporting of forward horizon returns -/

/-- Claim C5 counterexample: with only days 0 and 10 present, anchoring at
0, the 5-day walk finds just one trading day (`days_added = 1`) before the
`a + 10` bound, yet because the bound day itself (10) is present in the
series the source reports a 5-day forward return for it - the claimed
"reported only if exactly h trading days were found" fails. -/
theorem horizon_reported_without_h_trading_days_counterexample :
    horizonLoop (histDates [((0 : ℕ), (100 : ℚ)), (10, 110)]) 0 5 0 0 11 = (10, 1) ∧
    (1 : ℕ) ≠ 5 ∧
    horizonChange [(0, 100), (10, 110)] 0 0 5 = some 10 := by
  refine ⟨by decide, by decide, ?_⟩
  have hloop : horizonLoop (histDates [((0 : ℕ), (100 : ℚ)), (10, 110)]) 0 5 0 0 (5 + 6) =
      (10, 1) := by decide
  have h0 : closeAt [((0 : ℕ), (100 : ℚ)), (10, 110)] 0 = 100 := by decide
  have h10 : closeAt [((0 : ℕ), (100 : ℚ)), (10, 110)] 10 = 110 := by decide
  simp only [horizonChange, hloop]
  norm_num [h0, h10, histDates]

/-- Claim C5 (amended): for an anchored event (`a ≤ c ≤ a + 4`) and horizon
`day ≥ 1`, the walk's final day never passes `a + day + 5`; when the count
reached exactly `day` trading days the final day is present in the series
and the reported return is the claimed formula at it; but when the count
fell short the walk stops exactly at the bound day `a + day + 5`, and a
return - computed by the same formula at the bound day - is still reported
whenever that day happens to be present; the horizon field is absent (not
zero) exactly when the final day is not in the series. -/
theorem horizon_walk_characterization (hist : Hist) (a c day : ℕ)
    (hday : 1 ≤ day) (hac : a ≤ c) (hca : c ≤ a + 4) :
    ∀ f d, horizonLoop (histDates hist) a day c 0 (day + 6) = (f, d) →
      d ≤ day ∧ f ≤ a + (day + 5) ∧
      (d = day → f ∈ histDates hist) ∧
      (d < day → f = a + (day + 5)) ∧
      horizonChange hist a c day =
        (if f ∈ histDates hist then
          some ((closeAt hist f - closeAt hist c) / closeAt hist c * 100) else none) := by
  intro f d hfd
  have hpost := horizonLoop_post (histDates hist) a day (day + 6) c 0
    (by omega) (fun h => absurd h (by omega)) (by omega) (by omega)
  rw [hfd] at hpost
  refine ⟨hpost.1, hpost.2.2.1, hpost.2.1, hpost.2.2.2, ?_⟩
  simp only [horizonChange, hfd]

/-- Witness for C5's amended theorem at a concrete two-day series. -/
theorem horizon_walk_characterization_witness :
    ((1 : ℕ) ∈ histDates [((0 : ℕ), (100 : ℚ)), (1, 105)]) ∧ (1 : ℕ) ≤ 1 :=
  ⟨((horizon_walk_characterization [(0, 100), (1, 105)] 0 0 1 (by decide) (by decide)
      (by decide) 1 1 (by decide)).2.2.1) rfl, le_refl 1⟩

/-! ### Claim C7: ordering and bounds of the support/resistance levels -/

/-- Claim C7 counterexample: on a flat series (high = low = close = 100)
with `window = 1`, `num_levels = 1`, the single resistance level equals
both the current close and the 52-week high, so it is not strictly between
them; and on a series shorter than the window the level is NaN, lying
strictly between nothing. -/
theorem levels_not_strictly_between_counterexample :
    (calculate_support_resistance 0 [⟨100, 100, 100, 0⟩] "X" 1 1).map SRResult.resistances =
      some [some 100] ∧
    (calculate_support_resistance 0 [⟨100, 100, 100, 0⟩] "X" 1 1).map
      SRResult.fifty_two_week_high = some (some 100) ∧
    currentClose [⟨100, 100, 100, 0⟩] = 100 ∧
    ¬ ((100 : ℚ) < 100) ∧
    (calculate_support_resistance 0 [⟨100, 100, 100, 0⟩] "X" 2 1).map SRResult.resistances =
      some [none] := by
  refine ⟨?_, by decide, by decide, by norm_num, by decide⟩
  have hh : high52 [(⟨100, 100, 100, 0⟩ : PricePoint)] 1 = some 100 := by decide
  simp only [calculate_support_resistance, hh, Option.map_some']
  norm_num [pySortAsc, List.insertionSort, List.orderedInsert, List.range_succ,
    List.range_zero]

/-- Claim C7 (amended): for a series with at least `window` points (so the
52-week figures are defined) whose rows satisfy low ≤ close ≤ high, and any
`num_levels ≥ 1`, the resistance levels are in ascending and the support
levels in descending order, every resistance level lies between the current
close and `fifty_two_week_high` and every support level between
`fifty_two_week_low` and the current close - strictly whenever the
respective bounds differ strictly (on a flat series the levels coincide
with both bounds, and on a series shorter than the window they are NaN). -/
theorem resistance_support_levels_ordered_bounded (now : ℕ) (df : PriceSeries)
    (t : String) (window numLevels : ℕ) (hw : 1 ≤ window) (hlen : window ≤ df.length)
    (hn : 1 ≤ numLevels) (hohlc : ∀ p ∈ df, p.low ≤ p.close ∧ p.close ≤ p.high) :
    ∃ r H L, calculate_support_resistance now df t window numLevels = some r ∧
      r.fifty_two_week_high = some H ∧ r.fifty_two_week_low = some L ∧
      L ≤ currentClose df ∧ currentClose df ≤ H ∧
      (∃ res : List ℚ, r.resistances = res.map some ∧ res.length = numLevels ∧
        res.Sorted (· ≤ ·) ∧ (∀ x ∈ res, currentClose df ≤ x ∧ x ≤ H) ∧
        (currentClose df < H → ∀ x ∈ res, currentClose df < x ∧ x < H)) ∧
      (∃ sup : List ℚ, r.supports = sup.map some ∧ sup.length = numLevels ∧
        sup.Sorted (fun x y => y ≤ x) ∧ (∀ x ∈ sup, L ≤ x ∧ x ≤ currentClose df) ∧
        (L < currentClose df → ∀ x ∈ sup, L < x ∧ x < currentClose df)) := by
  have hne : df ≠ [] := by
    intro h
    rw [h] at hlen
    simp at hlen
    omega
  obtain ⟨last, hlast⟩ := Option.isSome_iff_exists.mp (List.getLast?_isSome.mpr hne)
  have hcc : currentClose df = last.close := by simp [currentClose, hlast]
  have hlastmem : last ∈ df := mem_of_getLast?_eq_some hlast
  -- the 52-week high exists and bounds the last high
  have hkH : df.length - window < (df.map (·.high)).length := by
    simp only [List.length_map]
    omega
  have hsliceHne : (df.map (·.high)).drop (df.length - window) ≠ [] := by
    rw [ne_eq, List.drop_eq_nil_iff]
    simp only [List.length_map]
    omega
  obtain ⟨H, hH⟩ : ∃ v, ((df.map (·.high)).drop (df.length - window)).max? = some v := by
    cases hm : ((df.map (·.high)).drop (df.length - window)).max? with
    | none => exact absurd (List.max?_eq_none_iff.mp hm) hsliceHne
    | some v => exact ⟨v, rfl⟩
  have hmaxH : high52 df window = some H := by rw [high52_eq_max df window hw hlen, hH]
  have hlastH : ((df.map (·.high)).drop (df.length - window)).getLast? = some last.high := by
    rw [getLast?_drop_of_lt _ _ hkH, List.getLast?_map, hlast]
    rfl
  have hcurH : last.close ≤ H :=
    le_trans (hohlc last hlastmem).2
      ((List.max?_le_iff (fun a b c => max_le_iff) hH).1 (le_refl H) _
        (mem_of_getLast?_eq_some hlastH))
  -- the 52-week low exists and bounds the last low
  have hkL : df.length - window < (df.map (·.low)).length := by
    simp only [List.length_map]
    omega
  have hsliceLne : (df.map (·.low)).drop (df.length - window) ≠ [] := by
    rw [ne_eq, List.drop_eq_nil_iff]
    simp only [List.length_map]
    omega
  obtain ⟨L, hL⟩ : ∃ v, ((df.map (·.low)).drop (df.length - window)).min? = some v := by
    cases hm : ((df.map (·.low)).drop (df.length - window)).min? with
    | none => exact absurd (List.min?_eq_none_iff.mp hm) hsliceLne
    | some v => exact ⟨v, rfl⟩
  have hminL : low52 df window = some L := by rw [low52_eq_min df window hw hlen, hL]
  have hlastL : ((df.map (·.low)).drop (df.length - window)).getLast? = some last.low := by
    rw [getLast?_drop_of_lt _ _ hkL, List.getLast?_map, hlast]
    rfl
  have hcurL : L ≤ last.close :=
    le_trans
      ((List.le_min?_iff (fun a b c => le_min_iff) hL).1 (le_refl L) _
        (mem_of_getLast?_eq_some hlastL))
      (hohlc last hlastmem).1
  -- the returned record, with both sorts in closed form
  have hcalc : calculate_support_resistance now df t window numLevels = some
      { ticker := t, date := now,
        fifty_two_week_high := some H, fifty_two_week_low := some L,
        ma_20 := lastMA (calculate_moving_averages df) 20,
        ma_50 := lastMA (calculate_moving_averages df) 50,
        ma_200 := lastMA (calculate_moving_averages df) 200,
        resistances := (((List.range numLevels).map (fun (i : ℕ) =>
          last.close + (((i : ℚ) + 1) / ((numLevels : ℚ) + 1)) * (H - last.close))).insertionSort
            (· ≤ ·)).map some,
        supports := ((((List.range numLevels).map (fun (i : ℕ) =>
          last.close - (((i : ℚ) + 1) / ((numLevels : ℚ) + 1)) * (last.close - L))).insertionSort
            (· ≤ ·)).reverse).map some } := by
    simp only [calculate_support_resistance, hlast, hmaxH, hminL, Option.map_some']
    rw [pySortAsc_map_some, pySortDesc_map_some]
  have hfrac : ∀ i : ℕ, i < numLevels →
      0 < ((i : ℚ) + 1) / ((numLevels : ℚ) + 1) ∧
      ((i : ℚ) + 1) / ((numLevels : ℚ) + 1) < 1 := by
    intro i hi
    constructor
    · positivity
    · rw [div_lt_one (by positivity)]
      have : (i : ℚ) < (numLevels : ℚ) := by exact_mod_cast hi
      linarith
  refine ⟨_, H, L, hcalc, rfl, rfl, by rw [hcc]; exact hcurL, by rw [hcc]; exact hcurH,
    ⟨_, rfl, ?_, ?_, ?_, ?_⟩, ⟨_, rfl, ?_, ?_, ?_, ?_⟩⟩
  · simp
  · exact List.sorted_insertionSort (· ≤ ·) _
  · intro x hx
    rw [List.mem_insertionSort] at hx
    obtain ⟨i, hi, rfl⟩ := List.mem_map.mp hx
    rw [List.mem_range] at hi
    obtain ⟨ht0, ht1⟩ := hfrac i hi
    rw [hcc]
    constructor <;> nlinarith
  · intro hlt x hx
    rw [List.mem_insertionSort] at hx
    obtain ⟨i, hi, rfl⟩ := List.mem_map.mp hx
    rw [List.mem_range] at hi
    obtain ⟨ht0, ht1⟩ := hfrac i hi
    rw [hcc] at hlt ⊢
    constructor <;> nlinarith
  · simp
  · exact List.pairwise_reverse.mpr (List.sorted_insertionSort (· ≤ ·) _)
  · intro x hx
    rw [List.mem_reverse, List.mem_insertionSort] at hx
    obtain ⟨i, hi, rfl⟩ := List.mem_map.mp hx
    rw [List.mem_range] at hi
    obtain ⟨ht0, ht1⟩ := hfrac i hi
    rw [hcc]
    constructor <;> nlinarith
  · intro hlt x hx
    rw [List.mem_reverse, List.mem_insertionSort] at hx
    obtain ⟨i, hi, rfl⟩ := List.mem_map.mp hx
    rw [List.mem_range] at hi
    obtain ⟨ht0, ht1⟩ := hfrac i hi
    rw [hcc] at hlt ⊢
    constructor <;> nlinarith

/-- Witness for C7's amended theorem at a one-point series with distinct
low < close < high. -/
theorem resistance_support_levels_ordered_bounded_witness :
    ∃ r H L, calculate_support_resistance 3 [⟨10, 1, 5, 0⟩] "W" 1 1 = some r ∧
      r.fifty_two_week_high = some H ∧ r.fifty_two_week_low = some L ∧
      L ≤ currentClose [⟨10, 1, 5, 0⟩] ∧ currentClose [⟨10, 1, 5, 0⟩] ≤ H ∧
      (∃ res : List ℚ, r.resistances = res.map some ∧ res.length = 1 ∧
        res.Sorted (· ≤ ·) ∧
        (∀ x ∈ res, currentClose [⟨10, 1, 5, 0⟩] ≤ x ∧ x ≤ H) ∧
        (currentClose [⟨10, 1, 5, 0⟩] < H →
          ∀ x ∈ res, currentClose [⟨10, 1, 5, 0⟩] < x ∧ x < H)) ∧
      (∃ sup : List ℚ, r.supports = sup.map some ∧ sup.length = 1 ∧
        sup.Sorted (fun x y => y ≤ x) ∧
        (∀ x ∈ sup, L ≤ x ∧ x ≤ currentClose [⟨10, 1, 5, 0⟩]) ∧
        (L < currentClose [⟨10, 1, 5, 0⟩] →
          ∀ x ∈ sup, L < x ∧ x < currentClose [⟨10, 1, 5, 0⟩])) :=
  resistance_support_levels_ordered_bounded 3 [⟨10, 1, 5, 0⟩] "W" 1 1
    (by decide) (by decide) (by decide) (by decide)

end StockAnalysis
